import Mathlib

/-!
Verification of the tfc terminal file commander (src/src/index.tsx).

The development is a shallow embedding of the core logic of the program:

* `dirname` and `resolvePath` embed the Node.js `path.dirname` / `path.resolve`
  (POSIX) routines the source calls.
* `mkListing` embeds the body of the `useFileTree` hook: map `readdir` dirents,
  sort directories-before-files with a name comparison inside each group, and
  prepend the synthetic `..` entry when the target path differs from its parent.
* `AppState`/`step` embed the `useAppState` hook as an explicit state machine:
  input events (tab / up / down / return) and asynchronous directory-read
  completions are discrete events; the set of in-flight reads of each panel is
  tracked in a `pending` list (a read is issued whenever the `cwd` of a panel
  changes, mirroring the `useEffect` on `targetCwd`), and a completion applies
  the `setItems`/`setError` continuation of the hook exactly as the source does — in particular
  without any comparison of the target path of the completed read against the
  current path of the panel.

The locale-aware `localeCompare` collation is abstracted as a parameter
`lc : String → String → Int`; concrete evaluations use `lcStd`, lexicographic
comparison by code point.
-/

namespace TFC

/-- One entry of a directory listing: the `{ name, isDirectory }` objects
built from `fs.readdir(..., { withFileTypes: true })` dirents. -/
structure Dirent where
  name : String
  isDirectory : Bool
deriving DecidableEq

/-- Scan loop of the Node POSIX `path.dirname`: walk indices from `length - 1`
down to `1`, skipping a trailing run of slashes, and return the index of the
first slash that follows a non-slash character. -/
def dirnameScan (cs : List Char) : Nat → Bool → Option Nat
  | 0, _ => none
  | i+1, matchedSlash =>
      if cs.getD (i+1) ' ' = '/' then
        if matchedSlash then dirnameScan cs i true
        else some (i+1)
      else dirnameScan cs i false

/-- The Node POSIX `path.dirname`, as called by `useFileTree` to compute
`parentDir`. -/
def dirname (p : String) : String :=
  let cs := p.data
  if cs.length = 0 then "."
  else
    let hasRoot := cs.headD ' ' = '/'
    match dirnameScan cs (cs.length - 1) true with
    | none => if hasRoot then "/" else "."
    | some e =>
      if hasRoot ∧ e = 1 then "//"
      else String.mk (cs.take e)

/-- Split a character list on the slash character, like splitting the joined path into
segments inside the Node `normalizeString` routine. -/
def splitSlashAux : List Char → List Char → List String
  | [], acc => [String.mk acc.reverse]
  | c :: cs, acc =>
      if c = '/' then String.mk acc.reverse :: splitSlashAux cs []
      else splitSlashAux cs (c :: acc)

/-- Segment normalization of the Node `normalizeString` routine for an absolute path
(`allowAboveRoot = false`): drop empty and `"."` segments, pop on `".."`. -/
def normSegs (segs : List String) : List String :=
  segs.foldl (fun acc seg =>
    if seg = "" ∨ seg = "." then acc
    else if seg = ".." then acc.dropLast
    else acc ++ [seg]) []

/-- Rebuild an absolute path from normalized segments. -/
def joinSegs : List String → String
  | [] => ""
  | s :: rest => "/" ++ s ++ joinSegs rest

/-- Whether a path string is absolute (first character is a slash): the Node
test `charCodeAt(0) === CHAR_FORWARD_SLASH`. -/
def isAbs (s : String) : Bool :=
  match s.data with
  | c :: _ => c = '/'
  | [] => false

/-- The Node POSIX `path.resolve(cwd, name)` for an absolute `cwd`, as called by
the `key.return` handler of `useAppState`: join the two arguments (the right
one wins if absolute) and normalize the result. -/
def resolvePath (cwd name : String) : String :=
  let joined := if isAbs name then name else cwd ++ "/" ++ name
  let segs := normSegs (splitSlashAux joined.data [])
  if segs = [] then "/" else joinSegs segs

/-- Lexicographic comparison of character lists by code point, yielding the
sign convention of `localeCompare`. -/
def charListCmpInt : List Char → List Char → Int
  | [], [] => 0
  | [], _ :: _ => -1
  | _ :: _, [] => 1
  | a :: as, b :: bs =>
      if a.toNat < b.toNat then -1
      else if b.toNat < a.toNat then 1
      else charListCmpInt as bs

/-- A concrete stand-in for `String.prototype.localeCompare`: lexicographic
comparison by code point.  Used to instantiate the abstract collation
parameter in concrete evaluations. -/
def lcStd (a b : String) : Int := charListCmpInt a.data b.data

/-- The comparator passed to `.sort` in `useFileTree`: directories first, then
files, both groups compared by name with the collation `lc`. -/
def direntCmp (lc : String → String → Int) (a b : Dirent) : Int :=
  if a.isDirectory && !b.isDirectory then -1
  else if !a.isDirectory && b.isDirectory then 1
  else lc a.name b.name

/-- The `≤`-relation induced by `direntCmp`, i.e. "the comparator does not
order `b` strictly before `a`". -/
def direntOrder (lc : String → String → Int) (a b : Dirent) : Prop :=
  direntCmp lc a b ≤ 0

instance (lc : String → String → Int) : DecidableRel (direntOrder lc) :=
  fun _ _ => inferInstanceAs (Decidable (_ ≤ _))

/-- The listing produced by `useFileTree` for `targetCwd` from the raw
`readdir` dirents: sort with `direntCmp`, then prepend the synthetic
`.. / isDirectory true` entry iff `targetCwd !== path.dirname(targetCwd)`. -/
def mkListing (lc : String → String → Int) (targetCwd : String)
    (dirents : List Dirent) : List Dirent :=
  let sortedItems := List.insertionSort (direntOrder lc) dirents
  let parentDir := dirname targetCwd
  if targetCwd ≠ parentDir then ⟨"..", true⟩ :: sortedItems else sortedItems

/-- The two panels. -/
inductive Panel
  | left
  | right
deriving DecidableEq

/-- State of one panel: the `leftCwd`/`leftIndex`/`leftFiles` (resp. right)
fields of the `useAppState` state merged with the corresponding `useFileTree`
hook state (`items`, `error`), which the sync effects copy into the app state.
`statError` is the shadow `leftFilesError`/`rightFilesError` field written by
the `key.return` stat failure handler (the displayed error is always the
`error` of the hook).  `pending` is the list of target paths of in-flight
`fs.readdir` calls issued by the effect of the hook. -/
structure PanelSt where
  cwd : String
  index : Int
  files : List Dirent
  error : Option String
  statError : Option String
  pending : List String
deriving DecidableEq

/-- The whole application state of `useAppState`. -/
structure AppState where
  activePanel : Panel
  left : PanelSt
  right : PanelSt
deriving DecidableEq

/-- Outcome of the `fs.stat(newPath)` call in the `key.return` handler,
supplied by the environment (the filesystem) at activation time. -/
inductive StatRes
  | dir
  | file
  | err (msg : String)
deriving DecidableEq

/-- Outcome of an `fs.readdir` call: the raw dirents, or a failure message. -/
inductive ReadRes
  | ok (items : List Dirent)
  | err (msg : String)
deriving DecidableEq

/-- Discrete events processed by the app: the input intents of the `useInput`
handler plus the asynchronous completion of a directory read. -/
inductive Ev
  | tab
  | quit
  | up
  | down
  | ret (stat : StatRes)
  | complete (pn : Panel) (path : String) (r : ReadRes)
deriving DecidableEq

/-- Observable effects emitted while handling an event. -/
inductive Act
  | log (msg : String)
  | exitApp
deriving DecidableEq

/-- The other panel. -/
def otherPanel : Panel → Panel
  | .left => .right
  | .right => .left

/-- Project the state of one panel. -/
def getPanel (s : AppState) : Panel → PanelSt
  | .left => s.left
  | .right => s.right

/-- Replace the state of one panel. -/
def setPanel (s : AppState) : Panel → PanelSt → AppState
  | .left, p => { s with left := p }
  | .right, p => { s with right := p }

/-- `key.upArrow` handler: `index = Math.max(index - 1, 0)`. -/
def moveUp (p : PanelSt) : PanelSt :=
  { p with index := max (p.index - 1) 0 }

/-- `key.downArrow` handler:
`index = Math.min(index + 1, (files?.length || 1) - 1)`. -/
def moveDown (p : PanelSt) : PanelSt :=
  { p with
    index := min (p.index + 1)
      ((if p.files.length = 0 then 1 else (p.files.length : Int)) - 1) }

/-- `currentFiles[currentIndex]`: JavaScript indexing yields `undefined`
outside the array bounds. -/
def selectedItem (p : PanelSt) : Option Dirent :=
  if p.index < 0 then none else p.files[p.index.toNat]?

/-- Completion of an `fs.readdir` for `path` on one panel: exactly the
`fetchFileTree` continuation of `useFileTree` — on success store the prepared
listing and clear the error, on failure store the error message and clear the
listing.  The result is applied only if the read was actually issued
(`path ∈ pending`); crucially, the source performs no comparison of `path`
with the current `cwd` of the panel. -/
def applyComplete (lc : String → String → Int) (p : PanelSt) (path : String)
    (r : ReadRes) : PanelSt :=
  if path ∈ p.pending then
    let p := { p with pending := p.pending.erase path }
    match r with
    | .ok ds =>
        { p with files := mkListing lc path ds, error := none, statError := none }
    | .err m =>
        { p with files := [],
                 error := some ("Error reading directory: " ++ m),
                 statError := some ("Error reading directory: " ++ m) }
  else p

/-- One step of the application: the `useInput` handler of `useAppState` for
input events, and the read-completion continuation for `Ev.complete`.  A
`cwd` change appends the new path to `pending` (the `useEffect` on
`targetCwd` re-runs exactly when the path value changed). -/
def step (lc : String → String → Int) (s : AppState) : Ev → AppState × List Act
  | .tab =>
      ({ s with activePanel := if s.activePanel = .left then .right else .left }, [])
  | .quit => (s, [.exitApp])
  | .up =>
      (setPanel s s.activePanel (moveUp (getPanel s s.activePanel)), [])
  | .down =>
      (setPanel s s.activePanel (moveDown (getPanel s s.activePanel)), [])
  | .ret stat =>
      let pn := s.activePanel
      let pan := getPanel s pn
      match selectedItem pan with
      | none => (s, [])
      | some item =>
        let newPath := resolvePath pan.cwd item.name
        match stat with
        | .dir =>
            (setPanel s pn
              { pan with
                cwd := newPath, index := 0,
                pending :=
                  if newPath = pan.cwd then pan.pending
                  else pan.pending ++ [newPath] }, [])
        | .file => (s, [.log ("Selected file: " ++ newPath)])
        | .err m =>
            (setPanel s pn
              { pan with
                statError := some ("Error accessing " ++ item.name ++ ": " ++ m) },
             [])
  | .complete pn path r =>
      (setPanel s pn (applyComplete lc (getPanel s pn) path r), [])

/-- The state part of `step`. -/
def stepFst (lc : String → String → Int) (s : AppState) (e : Ev) : AppState :=
  (step lc s e).1

/-- The initial application state of `useAppState`: left panel at the root path, right
panel at `os.homedir()`, cursors at 0, empty listings; mounting issues a
directory read for the initial path of each panel. -/
def initApp (home : String) : AppState :=
  { activePanel := .left
    left := { cwd := "/", index := 0, files := [], error := none,
              statError := none, pending := ["/"] }
    right := { cwd := home, index := 0, files := [], error := none,
               statError := none, pending := [home] } }

/-- Cursor invariant of one panel: the index is never negative, is 0 on an
empty listing, and is a valid index on a non-empty listing. -/
def cursorOK (p : PanelSt) : Prop :=
  0 ≤ p.index ∧ (p.files.length = 0 → p.index = 0)
    ∧ ((0 : Int) < p.files.length → p.index < p.files.length)

/-- All directories precede all files in the listing. -/
def dirsBeforeFiles (l : List Dirent) : Prop :=
  l.Pairwise (fun a b => b.isDirectory = true → a.isDirectory = true)

/-- Within each of the two groups (directories, files) the listing is ordered
by the collation `lc`: any two entries with the same `isDirectory` flag appear
in weakly increasing name order. -/
def groupsSorted (lc : String → String → Int) (l : List Dirent) : Prop :=
  l.Pairwise (fun a b => a.isDirectory = b.isDirectory → lc a.name b.name ≤ 0)

/-- Drop the synthetic parent entry at the head of a listing, if present. -/
def withoutParentEntry : List Dirent → List Dirent
  | [] => []
  | d :: rest => if d.name = ".." then rest else d :: rest

instance (p : PanelSt) : Decidable (cursorOK p) :=
  inferInstanceAs (Decidable (0 ≤ p.index ∧ (p.files.length = 0 → p.index = 0)
    ∧ ((0 : Int) < p.files.length → p.index < p.files.length)))

/-- Toggling of the active panel as a state transformer (the `key.tab`
branch of the input handler). -/
def toggleTab (lc : String → String → Int) (s : AppState) : AppState :=
  stepFst lc s .tab

/-- Modelled from the spec: startup argument handling is absent from the
source (spec section 1 excludes argument parsing for startup paths as an
external collaborator, and no code in the repository reads `process.argv`);
spec section 6 assigns zero, one or two filesystem path arguments to the left
and right panel respectively, with the defaults of the source — filesystem
root on the left, `os.homedir()` on the right — when arguments are omitted. -/
def startupPaths (args : List String) (home : String) : String × String :=
  ((args[0]?).getD "/", (args[1]?).getD home)

/-- Event trace for the stale-read scenario: navigate from the root into
`/s`, then quickly into `/s/a` (read A issued) and back up to `/s` (read B
issued) before either read completes; the read for B completes first, the
read for A last. -/
def staleTrace : List Ev :=
  [ .complete .left "/" (.ok [⟨"s", true⟩])
  , .ret .dir
  , .complete .left "/s" (.ok [⟨"a", true⟩, ⟨"b", true⟩])
  , .down
  , .ret .dir
  , .ret .dir
  , .complete .left "/s" (.ok [⟨"a", true⟩, ⟨"b", true⟩])
  , .complete .left "/s/a" (.ok [⟨"x", false⟩]) ]

/-- Event trace for the failed-read scenario: navigate into `/s/a`, move the
cursor down while the read for `/s/a` is still in flight, then let that read
fail with a permission error. -/
def failTrace : List Ev :=
  [ .complete .left "/" (.ok [⟨"s", true⟩])
  , .ret .dir
  , .complete .left "/s" (.ok [⟨"a", true⟩, ⟨"b", true⟩])
  , .down
  , .ret .dir
  , .down
  , .complete .left "/s/a" (.err "EACCES: permission denied") ]

/-- A concrete right panel used by the witness states. -/
def wRight : PanelSt :=
  { cwd := "/root", index := 0, files := [], error := none,
    statError := none, pending := [] }

/-- Concrete state matching the navigation scenario of the spec: active left
panel at `/home/user` with listing `[.., docs, notes.txt]` and the cursor on
`docs`. -/
def wNav : AppState :=
  { activePanel := .left
    left := { cwd := "/home/user", index := 1,
              files := [⟨"..", true⟩, ⟨"docs", true⟩, ⟨"notes.txt", false⟩],
              error := none, statError := none, pending := [] }
    right := wRight }

/-- Concrete state with the cursor on the regular file `notes.txt`. -/
def wFile : AppState :=
  { activePanel := .left
    left := { cwd := "/home/user", index := 2,
              files := [⟨"..", true⟩, ⟨"docs", true⟩, ⟨"notes.txt", false⟩],
              error := none, statError := none, pending := [] }
    right := wRight }

/-- Concrete state whose highlighted entry is listed as a non-directory (as a
symbolic link to a directory is), while a fresh stat of it reports a
directory. -/
def wLink : AppState :=
  { activePanel := .left
    left := { cwd := "/home/user", index := 0,
              files := [⟨"linkdir", false⟩],
              error := none, statError := none, pending := [] }
    right := wRight }

/-- Concrete state whose highlighted entry is listed as a directory, while a
fresh stat of it reports a regular file (the object changed on disk after the
listing was read). -/
def wChanged : AppState :=
  { activePanel := .left
    left := { cwd := "/home/user", index := 0,
              files := [⟨"olddir", true⟩],
              error := none, statError := none, pending := [] }
    right := wRight }

/-- Concrete state with one read in flight, used to exercise the failure
continuation directly. -/
def wPending : AppState :=
  { activePanel := .left
    left := { cwd := "/home/user/docs", index := 0,
              files := [⟨"..", true⟩, ⟨"docs", true⟩, ⟨"notes.txt", false⟩],
              error := none, statError := none, pending := ["/home/user/docs"] }
    right := wRight }

theorem charListCmpInt_swap : ∀ as bs : List Char,
    charListCmpInt bs as = -(charListCmpInt as bs)
  | [], [] => by simp [charListCmpInt]
  | [], _ :: _ => by simp [charListCmpInt]
  | _ :: _, [] => by simp [charListCmpInt]
  | a :: as, b :: bs => by
      by_cases hab : a.toNat < b.toNat
      · have : ¬ b.toNat < a.toNat := by omega
        simp [charListCmpInt, hab, this]
      · by_cases hba : b.toNat < a.toNat
        · simp [charListCmpInt, hab, hba]
        · simp [charListCmpInt, hab, hba, charListCmpInt_swap as bs]

theorem charListCmpInt_le_trans : ∀ as bs cs : List Char,
    charListCmpInt as bs ≤ 0 → charListCmpInt bs cs ≤ 0 →
      charListCmpInt as cs ≤ 0
  | [], _, [] => fun _ _ => by simp [charListCmpInt]
  | [], _, _ :: _ => fun _ _ => by simp [charListCmpInt]
  | _ :: _, [], _ => fun h _ => by simp [charListCmpInt] at h
  | _ :: _, _ :: _, [] => fun _ h => by simp [charListCmpInt] at h
  | a :: as, b :: bs, c :: cs => fun h1 h2 => by
      by_cases hab : a.toNat < b.toNat <;>
        by_cases hba : b.toNat < a.toNat <;>
        by_cases hbc : b.toNat < c.toNat <;>
        by_cases hcb : c.toNat < b.toNat <;>
        simp only [charListCmpInt, hab, hba, hbc, hcb, if_true, if_false,
          ite_true, ite_false, if_pos, if_neg, not_false_iff] at h1 h2 ⊢ <;>
        first
          | omega
          | (simp only [show ¬ a.toNat < c.toNat from by omega,
                show ¬ c.toNat < a.toNat from by omega, if_neg,
                not_false_iff, ite_false]
             exact charListCmpInt_le_trans as bs cs h1 h2)

theorem lcStd_trans (a b c : String) (h1 : lcStd a b ≤ 0) (h2 : lcStd b c ≤ 0) :
    lcStd a c ≤ 0 :=
  charListCmpInt_le_trans a.data b.data c.data h1 h2

theorem lcStd_total (a b : String) : lcStd a b ≤ 0 ∨ lcStd b a ≤ 0 := by
  unfold lcStd
  rcases le_or_lt (charListCmpInt a.data b.data) 0 with h | h
  · exact Or.inl h
  · right
    rw [charListCmpInt_swap a.data b.data]
    omega

theorem direntOrder_trans (lc : String → String → Int)
    (hTrans : ∀ a b c : String, lc a b ≤ 0 → lc b c ≤ 0 → lc a c ≤ 0)
    (a b c : Dirent) (hab : direntOrder lc a b) (hbc : direntOrder lc b c) :
    direntOrder lc a c := by
  unfold direntOrder direntCmp at hab hbc ⊢
  cases ha : a.isDirectory <;> cases hb : b.isDirectory <;>
    cases hc : c.isDirectory <;>
    simp [ha, hb, hc] at hab hbc ⊢ <;>
    first
      | omega
      | exact hTrans _ _ _ hab hbc

theorem direntOrder_total (lc : String → String → Int)
    (hTotal : ∀ a b : String, lc a b ≤ 0 ∨ lc b a ≤ 0)
    (a b : Dirent) : direntOrder lc a b ∨ direntOrder lc b a := by
  unfold direntOrder direntCmp
  cases ha : a.isDirectory <;> cases hb : b.isDirectory <;>
    simp [ha, hb] <;>
    first
      | (left; omega)
      | (right; omega)
      | exact hTotal _ _

theorem sorted_listing (lc : String → String → Int)
    (hTrans : ∀ a b c : String, lc a b ≤ 0 → lc b c ≤ 0 → lc a c ≤ 0)
    (hTotal : ∀ a b : String, lc a b ≤ 0 ∨ lc b a ≤ 0) (ds : List Dirent) :
    List.Sorted (direntOrder lc) (List.insertionSort (direntOrder lc) ds) := by
  haveI : IsTrans Dirent (direntOrder lc) := ⟨direntOrder_trans lc hTrans⟩
  haveI : IsTotal Dirent (direntOrder lc) := ⟨direntOrder_total lc hTotal⟩
  exact List.sorted_insertionSort _ _

theorem getPanel_setPanel_self (s : AppState) (pn : Panel) (p : PanelSt) :
    getPanel (setPanel s pn p) pn = p := by
  cases pn <;> rfl

theorem getPanel_setPanel_other (s : AppState) (pn : Panel) (p : PanelSt) :
    getPanel (setPanel s pn p) (otherPanel pn) = getPanel s (otherPanel pn) := by
  cases pn <;> rfl

theorem activePanel_setPanel (s : AppState) (pn : Panel) (p : PanelSt) :
    (setPanel s pn p).activePanel = s.activePanel := by
  cases pn <;> rfl

theorem cursorOK_moveUp (p : PanelSt) (h : cursorOK p) : cursorOK (moveUp p) := by
  obtain ⟨h0, hempty, hlt⟩ := h
  refine ⟨le_max_right _ _, fun hlen => ?_, fun hlen => ?_⟩
  · have := hempty hlen
    simp only [moveUp]
    omega
  · simp only [moveUp] at *
    exact max_lt (by omega) hlen

theorem cursorOK_moveDown (p : PanelSt) (h : cursorOK p) : cursorOK (moveDown p) := by
  obtain ⟨h0, hempty, hlt⟩ := h
  by_cases hlen : p.files.length = 0
  · have hidx : (moveDown p).index = min (p.index + 1) 0 := by
      simp [moveDown, hlen]
    have hi0 := hempty hlen
    refine ⟨?_, fun _ => ?_, fun hpos => ?_⟩ <;>
      simp only [show (moveDown p).files = p.files from rfl, hidx] at * <;> omega
  · have hidx : (moveDown p).index
        = min (p.index + 1) ((p.files.length : Int) - 1) := by
      simp [moveDown, hlen]
    have hpos : 0 < p.files.length := Nat.pos_of_ne_zero hlen
    have hlt' := hlt (by exact_mod_cast hpos)
    refine ⟨?_, fun hz => ?_, fun _ => ?_⟩ <;>
      simp only [show (moveDown p).files = p.files from rfl, hidx] at * <;> omega

theorem cursorOK_step_updown (lc : String → String → Int) (s : AppState) (e : Ev)
    (he : e = .up ∨ e = .down) (hL : cursorOK s.left) (hR : cursorOK s.right) :
    cursorOK (stepFst lc s e).left ∧ cursorOK (stepFst lc s e).right := by
  rcases he with rfl | rfl <;> cases hap : s.activePanel <;>
    simp only [stepFst, step, hap, getPanel, setPanel] <;>
    exact ⟨by first | exact cursorOK_moveUp _ hL | exact cursorOK_moveDown _ hL | exact hL,
           by first | exact cursorOK_moveUp _ hR | exact cursorOK_moveDown _ hR | exact hR⟩

theorem step_ret_dir (lc : String → String → Int) (s : AppState) (item : Dirent)
    (hsel : selectedItem (getPanel s s.activePanel) = some item)
    (hne : resolvePath (getPanel s s.activePanel).cwd item.name
        ≠ (getPanel s s.activePanel).cwd) :
    step lc s (.ret .dir)
      = (setPanel s s.activePanel
          { getPanel s s.activePanel with
            cwd := resolvePath (getPanel s s.activePanel).cwd item.name
            index := 0
            pending := (getPanel s s.activePanel).pending
              ++ [resolvePath (getPanel s s.activePanel).cwd item.name] }, []) := by
  simp only [step, hsel, hne, ite_false, if_neg, not_false_iff]

theorem step_ret_file (lc : String → String → Int) (s : AppState) (item : Dirent)
    (hsel : selectedItem (getPanel s s.activePanel) = some item) :
    step lc s (.ret .file)
      = (s, [.log ("Selected file: "
          ++ resolvePath (getPanel s s.activePanel).cwd item.name)]) := by
  simp only [step, hsel]

theorem errorMessage_ne_empty (msg : String) :
    "Error reading directory: " ++ msg ≠ "" := by
  intro h
  have h' := congrArg String.length h
  rw [String.length_append] at h'
  have h25 : ("Error reading directory: ").length = 25 := by decide
  have h0 : ("" : String).length = 0 := by decide
  omega

/-- Claim C1 (code bug).  The source has no stale-response guard: in
`staleTrace` the panel issues a read for `/s/a` (path A) and then navigates
to `/s` (path B) before either read completes; the read for B completes
first and the read for A last.  The final state has `cwd = "/s"` (path B)
but displays the listing of `/s/a` (path A) — the completion handler of
`useFileTree` stores the result of every completed read without comparing
its target path to the current path, so the last completed read wins and a
stale listing overwrites a newer navigation. -/
theorem claim1_stale_read_applied :
    (staleTrace.foldl (stepFst lcStd) (initApp "/root")).left.cwd = "/s"
    ∧ (staleTrace.foldl (stepFst lcStd) (initApp "/root")).left.files
        = [⟨"..", true⟩, ⟨"x", false⟩]
    ∧ (staleTrace.foldl (stepFst lcStd) (initApp "/root")).left.files
        ≠ mkListing lcStd "/s" [⟨"a", true⟩, ⟨"b", true⟩] := by
  decide

/-- Claim C9 (code bug).  Activating the highlighted regular file
`notes.txt` leaves the whole application state unchanged and merely emits
`console.log("Selected file: ...")`: no View/Edit-equivalent operation (no
external viewer) is invoked, contrary to the product requirement that
pressing Enter on a file executes it and is never a mere placeholder. -/
theorem claim9_file_activation_only_logs :
    step lcStd wFile (.ret .file)
      = (wFile, [.log "Selected file: /home/user/notes.txt"]) := by
  decide

/-- Claim C5, counterexample.  A read failure does not reset the cursor: in
`failTrace` the user navigates into `/s/a` (cursor reset to 0 by the
navigation) and presses the down arrow while the read is in flight; when the
read then fails, the error is set and the listing cleared, but the cursor
stays at 1, not 0 — refuting the claim that the cursor resets to 0 on a
failed read. -/
theorem claim5_counterexample :
    (failTrace.foldl (stepFst lcStd) (initApp "/root")).left.error
        = some "Error reading directory: EACCES: permission denied"
    ∧ (failTrace.foldl (stepFst lcStd) (initApp "/root")).left.files = []
    ∧ ¬ (failTrace.foldl (stepFst lcStd) (initApp "/root")).left.index = 0 := by
  decide

/-- Claim C8 (spec-modelled argument handling).  `startupPaths` assigns zero,
one or two path arguments to the left and right panel respectively, with the
defaults of the source when omitted; with no arguments it agrees with the
initial state of `useAppState`: left panel at the filesystem root, right
panel at the home directory of the invoking user. -/
theorem claim8_startup_paths (a b home : String) :
    startupPaths [] home = ("/", home)
    ∧ startupPaths [a] home = (a, home)
    ∧ startupPaths [a, b] home = (a, b)
    ∧ (initApp home).left.cwd = (startupPaths [] home).1
    ∧ (initApp home).right.cwd = (startupPaths [] home).2
    ∧ (initApp home).left.cwd = "/"
    ∧ (initApp home).right.cwd = home := by
  refine ⟨rfl, rfl, rfl, rfl, rfl, rfl, rfl⟩

/-- Claim C4 (confirmed).  For every sequence of cursor-move inputs (up and
down arrows), both panels keep a cursor that is never negative and never out
of bounds: within `[0, length - 1]` on a non-empty listing and fixed at 0 on
an empty listing. -/
theorem claim4_cursor_in_bounds (lc : String → String → Int) (evs : List Ev)
    (hevs : ∀ e ∈ evs, e = .up ∨ e = .down) (s : AppState)
    (hL : cursorOK s.left) (hR : cursorOK s.right) :
    cursorOK ((evs.foldl (stepFst lc) s)).left
    ∧ cursorOK ((evs.foldl (stepFst lc) s)).right := by
  induction evs generalizing s with
  | nil => exact ⟨hL, hR⟩
  | cons e evs ih =>
      simp only [List.foldl_cons]
      have h := cursorOK_step_updown lc s e (hevs e (by simp)) hL hR
      exact ih (fun e' he' => hevs e' (by simp [he'])) _ h.1 h.2

/-- Witness for C4: three cursor moves from the initial state keep both
cursors in bounds. -/
theorem claim4_witness :
    cursorOK (([Ev.down, Ev.down, Ev.up].foldl (stepFst lcStd) (initApp "/root"))).left
    ∧ cursorOK (([Ev.down, Ev.down, Ev.up].foldl (stepFst lcStd) (initApp "/root"))).right :=
  claim4_cursor_in_bounds lcStd [Ev.down, Ev.down, Ev.up] (by decide)
    (initApp "/root") (by decide) (by decide)

/-- Claim C5, amended (corrected).  When a directory read for a panel fails,
that panel stores a non-empty error message and clears its listing, and the
cursor and path are left untouched by the failure handler (the cursor is not
reset to 0). -/
theorem claim5_amended_failure_state (lc : String → String → Int) (s : AppState)
    (pn : Panel) (path msg : String) (hpend : path ∈ (getPanel s pn).pending) :
    (getPanel (stepFst lc s (.complete pn path (.err msg))) pn).error
        = some ("Error reading directory: " ++ msg)
    ∧ ("Error reading directory: " ++ msg) ≠ ""
    ∧ (getPanel (stepFst lc s (.complete pn path (.err msg))) pn).files = []
    ∧ (getPanel (stepFst lc s (.complete pn path (.err msg))) pn).index
        = (getPanel s pn).index
    ∧ (getPanel (stepFst lc s (.complete pn path (.err msg))) pn).cwd
        = (getPanel s pn).cwd := by
  cases pn <;>
    simp only [getPanel] at hpend <;>
    simp [stepFst, step, applyComplete, getPanel, setPanel, hpend,
      errorMessage_ne_empty msg]

/-- Witness for the amended C5: a failing read for the pending path in
`wPending` sets the error, clears the listing and keeps the cursor. -/
theorem claim5_amended_witness :
    (getPanel (stepFst lcStd wPending (.complete .left "/home/user/docs" (.err "EACCES")))
        .left).error = some ("Error reading directory: " ++ "EACCES")
    ∧ ("Error reading directory: " ++ "EACCES") ≠ ""
    ∧ (getPanel (stepFst lcStd wPending (.complete .left "/home/user/docs" (.err "EACCES")))
        .left).files = []
    ∧ (getPanel (stepFst lcStd wPending (.complete .left "/home/user/docs" (.err "EACCES")))
        .left).index = (getPanel wPending .left).index
    ∧ (getPanel (stepFst lcStd wPending (.complete .left "/home/user/docs" (.err "EACCES")))
        .left).cwd = (getPanel wPending .left).cwd :=
  claim5_amended_failure_state lcStd wPending .left "/home/user/docs" "EACCES" (by decide)

/-- Claim C6 (confirmed).  When the activate intent fires on the highlighted
entry and the fresh stat of the resolved path reports a directory (as it does
for any highlighted directory entry, the synthetic `..` included), the active
panel navigates: its path becomes the path resolved from the current path and
the entry name, its cursor resets to 0, and a read for the new path is
issued; the inactive panel and the active-panel flag are unchanged. -/
theorem claim6_activate_directory (lc : String → String → Int) (s : AppState)
    (item : Dirent)
    (hsel : selectedItem (getPanel s s.activePanel) = some item)
    (hne : resolvePath (getPanel s s.activePanel).cwd item.name
        ≠ (getPanel s s.activePanel).cwd) :
    (getPanel (stepFst lc s (.ret .dir)) s.activePanel).cwd
        = resolvePath (getPanel s s.activePanel).cwd item.name
    ∧ (getPanel (stepFst lc s (.ret .dir)) s.activePanel).index = 0
    ∧ (getPanel (stepFst lc s (.ret .dir)) s.activePanel).pending
        = (getPanel s s.activePanel).pending
          ++ [resolvePath (getPanel s s.activePanel).cwd item.name]
    ∧ getPanel (stepFst lc s (.ret .dir)) (otherPanel s.activePanel)
        = getPanel s (otherPanel s.activePanel)
    ∧ (stepFst lc s (.ret .dir)).activePanel = s.activePanel := by
  have h := step_ret_dir lc s item hsel hne
  have hs : stepFst lc s (.ret .dir)
      = setPanel s s.activePanel
          { getPanel s s.activePanel with
            cwd := resolvePath (getPanel s s.activePanel).cwd item.name
            index := 0
            pending := (getPanel s s.activePanel).pending
              ++ [resolvePath (getPanel s s.activePanel).cwd item.name] } := by
    simp [stepFst, h]
  rw [hs]
  simp [getPanel_setPanel_self, getPanel_setPanel_other, activePanel_setPanel]

/-- Witness for C6: the navigation scenario of the spec — active panel at
`/home/user`, cursor on `docs`, activate with the stat reporting a
directory. -/
theorem claim6_witness :
    (getPanel (stepFst lcStd wNav (.ret .dir)) wNav.activePanel).cwd
        = resolvePath (getPanel wNav wNav.activePanel).cwd "docs"
    ∧ (getPanel (stepFst lcStd wNav (.ret .dir)) wNav.activePanel).index = 0
    ∧ (getPanel (stepFst lcStd wNav (.ret .dir)) wNav.activePanel).pending
        = (getPanel wNav wNav.activePanel).pending
          ++ [resolvePath (getPanel wNav wNav.activePanel).cwd "docs"]
    ∧ getPanel (stepFst lcStd wNav (.ret .dir)) (otherPanel wNav.activePanel)
        = getPanel wNav (otherPanel wNav.activePanel)
    ∧ (stepFst lcStd wNav (.ret .dir)).activePanel = wNav.activePanel :=
  claim6_activate_directory lcStd wNav ⟨"docs", true⟩ (by decide) (by decide)

/-- Claim C7 (confirmed).  Toggling flips the active panel and is an
involution on the whole state, so any even number of toggles restores the
original state including `activePanel`; a toggle changes neither panel (path,
cursor, listing, errors, pending reads); every event other than the toggle
leaves `activePanel` unchanged; and `activePanel` is always exactly one of
left or right. -/
theorem claim7_toggle (lc : String → String → Int) (s : AppState) :
    stepFst lc (stepFst lc s .tab) .tab = s
    ∧ (∀ n : Nat, (toggleTab lc)^[2 * n] s = s)
    ∧ (stepFst lc s .tab).left = s.left
    ∧ (stepFst lc s .tab).right = s.right
    ∧ (stepFst lc s .tab).activePanel ≠ s.activePanel
    ∧ (∀ e : Ev, e ≠ .tab → (stepFst lc s e).activePanel = s.activePanel)
    ∧ (s.activePanel = .left ∨ s.activePanel = .right)
  := by
  have hinv : stepFst lc (stepFst lc s .tab) .tab = s := by
    obtain ⟨ap, l, r⟩ := s
    cases ap <;> rfl
  refine ⟨hinv, ?_, ?_, ?_, ?_, ?_, ?_⟩
  · intro n
    induction n with
    | zero => rfl
    | succ n ih =>
        have h2 : 2 * (n + 1) = 2 * n + 1 + 1 := by ring
        rw [h2, Function.iterate_succ_apply, Function.iterate_succ_apply]
        have : toggleTab lc (toggleTab lc s) = s := hinv
        rw [this]
        exact ih
  · obtain ⟨ap, l, r⟩ := s
    cases ap <;> rfl
  · obtain ⟨ap, l, r⟩ := s
    cases ap <;> rfl
  · obtain ⟨ap, l, r⟩ := s
    cases ap <;> simp [stepFst, step]
  · intro e he
    cases e with
    | tab => exact absurd rfl he
    | quit => rfl
    | up => exact activePanel_setPanel _ _ _
    | down => exact activePanel_setPanel _ _ _
    | ret st =>
        cases hsel : selectedItem (getPanel s s.activePanel) with
        | none => simp [stepFst, step, hsel]
        | some item =>
            cases st <;>
              simp [stepFst, step, hsel, activePanel_setPanel]
    | complete pn path r => exact activePanel_setPanel _ _ _
  · cases hap : s.activePanel
    · exact Or.inl rfl
    · exact Or.inr rfl

/-- Witness for C7: two toggles from the initial state restore it, four
toggles restore it, and a non-toggle event (cursor down) keeps the active
panel. -/
theorem claim7_witness :
    stepFst lcStd (stepFst lcStd (initApp "/root") .tab) .tab = initApp "/root"
    ∧ (toggleTab lcStd)^[2 * 2] (initApp "/root") = initApp "/root"
    ∧ (stepFst lcStd (initApp "/root") .down).activePanel
        = (initApp "/root").activePanel :=
  ⟨(claim7_toggle lcStd (initApp "/root")).1,
   (claim7_toggle lcStd (initApp "/root")).2.1 2,
   (claim7_toggle lcStd (initApp "/root")).2.2.2.2.2.1 .down (by decide)⟩

/-- Claim C10 (confirmed).  Whether activation descends is decided by the
fresh stat of the resolved path at activation time, not by the listed
`isDirectory` flag of the entry: the statement holds for every highlighted
entry regardless of its flag, so an entry listed as a non-directory (as a
symbolic link to a directory is) still navigates when the stat reports a
directory, and an entry listed as a directory whose on-disk object became a
regular file is treated as a file (logged, no navigation). -/
theorem claim10_stat_decides (lc : String → String → Int) (s : AppState)
    (item : Dirent)
    (hsel : selectedItem (getPanel s s.activePanel) = some item)
    (hne : resolvePath (getPanel s s.activePanel).cwd item.name
        ≠ (getPanel s s.activePanel).cwd) :
    (getPanel (stepFst lc s (.ret .dir)) s.activePanel).cwd
        = resolvePath (getPanel s s.activePanel).cwd item.name
    ∧ step lc s (.ret .file)
        = (s, [.log ("Selected file: "
            ++ resolvePath (getPanel s s.activePanel).cwd item.name)]) := by
  constructor
  · have h := step_ret_dir lc s item hsel hne
    have hs : stepFst lc s (.ret .dir)
        = setPanel s s.activePanel
            { getPanel s s.activePanel with
              cwd := resolvePath (getPanel s s.activePanel).cwd item.name
              index := 0
              pending := (getPanel s s.activePanel).pending
                ++ [resolvePath (getPanel s s.activePanel).cwd item.name] } := by
      simp [stepFst, h]
    rw [hs, getPanel_setPanel_self]
  · exact step_ret_file lc s item hsel

/-- Witness for C10: in `wLink` the highlighted entry is listed with
`isDirectory = false` yet a stat reporting a directory makes the panel
navigate into it; in `wChanged` the highlighted entry is listed with
`isDirectory = true` yet a stat reporting a file only logs. -/
theorem claim10_witness :
    (getPanel (stepFst lcStd wLink (.ret .dir)) wLink.activePanel).cwd
        = resolvePath (getPanel wLink wLink.activePanel).cwd "linkdir"
    ∧ step lcStd wChanged (.ret .file)
        = (wChanged, [.log ("Selected file: "
            ++ resolvePath (getPanel wChanged wChanged.activePanel).cwd "olddir")]) :=
  ⟨(claim10_stat_decides lcStd wLink ⟨"linkdir", false⟩ (by decide) (by decide)).1,
   (claim10_stat_decides lcStd wChanged ⟨"olddir", true⟩ (by decide) (by decide)).2⟩

theorem mkListing_eq (lc : String → String → Int) (p : String) (ds : List Dirent) :
    mkListing lc p ds
      = if p ≠ dirname p then
          ⟨"..", true⟩ :: List.insertionSort (direntOrder lc) ds
        else List.insertionSort (direntOrder lc) ds := rfl

/-- Claim C2 (confirmed).  Every listing produced by the reader has all
directories before all files; inside each of the two groups (the synthetic
`..` head excluded) names are weakly increasing for the collation; and the
synthetic `..` entry, when present, is at index 0.  The collation is assumed
transitive and total, which holds for `localeCompare`; the dirents come from
`readdir`, which never returns a `..` entry. -/
theorem claim2_listing_order (lc : String → String → Int)
    (hTrans : ∀ a b c : String, lc a b ≤ 0 → lc b c ≤ 0 → lc a c ≤ 0)
    (hTotal : ∀ a b : String, lc a b ≤ 0 ∨ lc b a ≤ 0)
    (p : String) (ds : List Dirent) (hds : ∀ d ∈ ds, d.name ≠ "..") :
    dirsBeforeFiles (mkListing lc p ds)
    ∧ groupsSorted lc (withoutParentEntry (mkListing lc p ds))
    ∧ ((⟨"..", true⟩ : Dirent) ∈ mkListing lc p ds →
        (mkListing lc p ds).head? = some ⟨"..", true⟩) := by
  have hsorted := sorted_listing lc hTrans hTotal ds
  have hDB : dirsBeforeFiles (List.insertionSort (direntOrder lc) ds) := by
    refine hsorted.imp ?_
    intro a b hab hbdir
    by_contra hadir
    have ha : a.isDirectory = false := by
      cases hval : a.isDirectory
      · rfl
      · exact absurd hval hadir
    unfold direntOrder direntCmp at hab
    simp [ha, hbdir] at hab
  have hGS : groupsSorted lc (List.insertionSort (direntOrder lc) ds) := by
    refine hsorted.imp ?_
    intro a b hab heq
    unfold direntOrder direntCmp at hab
    cases ha2 : a.isDirectory <;> cases hb2 : b.isDirectory <;>
      simp [ha2, hb2] at hab heq ⊢ <;> exact hab
  have hmemsorted : ∀ d ∈ List.insertionSort (direntOrder lc) ds, d.name ≠ ".." :=
    fun d hd => hds d ((List.mem_insertionSort _).mp hd)
  rw [mkListing_eq]
  by_cases hroot : p = dirname p
  · have hcond : ¬ (p ≠ dirname p) := not_not_intro hroot
    rw [if_neg hcond]
    refine ⟨hDB, ?_, fun hmem => absurd rfl (hmemsorted _ hmem)⟩
    have heq : withoutParentEntry (List.insertionSort (direntOrder lc) ds)
        = List.insertionSort (direntOrder lc) ds := by
      cases hcase : List.insertionSort (direntOrder lc) ds with
      | nil => rfl
      | cons d rest =>
          have hd : d ∈ List.insertionSort (direntOrder lc) ds := by
            rw [hcase]
            exact List.mem_cons_self _ _
          have hname := hmemsorted d hd
          simp [withoutParentEntry, hname]
    rw [heq]
    exact hGS
  · rw [if_pos hroot]
    refine ⟨?_, ?_, fun _ => rfl⟩
    · exact List.Pairwise.cons (fun b _ _ => rfl) hDB
    · have heq : withoutParentEntry
          (⟨"..", true⟩ :: List.insertionSort (direntOrder lc) ds)
          = List.insertionSort (direntOrder lc) ds := by
        simp [withoutParentEntry]
      rw [heq]
      exact hGS

/-- Witness for C2: a mixed listing under the code-point collation. -/
theorem claim2_witness :
    dirsBeforeFiles (mkListing lcStd "/home/user"
        [⟨"notes.txt", false⟩, ⟨"pics", true⟩, ⟨"docs", true⟩])
    ∧ groupsSorted lcStd (withoutParentEntry (mkListing lcStd "/home/user"
        [⟨"notes.txt", false⟩, ⟨"pics", true⟩, ⟨"docs", true⟩]))
    ∧ ((⟨"..", true⟩ : Dirent) ∈ mkListing lcStd "/home/user"
          [⟨"notes.txt", false⟩, ⟨"pics", true⟩, ⟨"docs", true⟩] →
        (mkListing lcStd "/home/user"
          [⟨"notes.txt", false⟩, ⟨"pics", true⟩, ⟨"docs", true⟩]).head?
          = some ⟨"..", true⟩) :=
  claim2_listing_order lcStd lcStd_trans lcStd_total "/home/user"
    [⟨"notes.txt", false⟩, ⟨"pics", true⟩, ⟨"docs", true⟩] (by decide)

/-- Claim C3 (confirmed).  The produced listing contains the synthetic entry
`⟨"..", true⟩` iff the computed parent of the path differs from the path
itself; an empty directory that is not the root yields exactly the one
synthetic entry; and the filesystem root `/` yields no `..` entry. -/
theorem claim3_parent_entry (lc : String → String → Int) (p : String)
    (ds : List Dirent) (hds : ∀ d ∈ ds, d.name ≠ "..") :
    ((⟨"..", true⟩ : Dirent) ∈ mkListing lc p ds ↔ dirname p ≠ p)
    ∧ (dirname p ≠ p → mkListing lc p [] = [⟨"..", true⟩])
    ∧ (p = "/" → (⟨"..", true⟩ : Dirent) ∉ mkListing lc p ds) := by
  have hmemsorted : ∀ d ∈ List.insertionSort (direntOrder lc) ds, d.name ≠ ".." :=
    fun d hd => hds d ((List.mem_insertionSort _).mp hd)
  refine ⟨?_, ?_, ?_⟩
  · rw [mkListing_eq]
    by_cases hroot : p = dirname p
    · have hcond : ¬ (p ≠ dirname p) := not_not_intro hroot
      rw [if_neg hcond]
      constructor
      · intro hmem
        exact absurd rfl (hmemsorted _ hmem)
      · intro hne
        exact absurd hroot.symm hne
    · rw [if_pos hroot]
      constructor
      · intro _
        exact fun heq => hroot heq.symm
      · intro _
        exact List.mem_cons_self _ _
  · intro hne
    rw [mkListing_eq, if_pos (Ne.symm hne)]
    rfl
  · intro hp
    subst hp
    rw [mkListing_eq]
    have hcond : ¬ ("/" ≠ dirname "/") := by decide
    rw [if_neg hcond]
    intro hmem
    exact absurd rfl (hmemsorted _ hmem)

/-- Witness for C3: the parent entry is present for a non-root directory,
an empty non-root directory lists exactly the parent entry, and the root
listing omits it. -/
theorem claim3_witness :
    ((⟨"..", true⟩ : Dirent) ∈ mkListing lcStd "/home/user" [⟨"docs", true⟩]
        ↔ dirname "/home/user" ≠ "/home/user")
    ∧ (dirname "/home/user" ≠ "/home/user" →
        mkListing lcStd "/home/user" [] = [⟨"..", true⟩])
    ∧ ("/home/user" = "/" →
        (⟨"..", true⟩ : Dirent) ∉ mkListing lcStd "/home/user" [⟨"docs", true⟩]) :=
  claim3_parent_entry lcStd "/home/user" [⟨"docs", true⟩] (by decide)

end TFC
